import Mathlib

/-!
Shallow embedding of the printer-backend abstraction and connection-lifecycle
layer of the mcp-3D-printer-server repository (src/dist/printers/bambu.js,
src/dist/printers/printer-factory.js, and the print_3mf tool handler).

Strings manipulated character-by-character by the source (credential tokens)
are modelled as `List Char`; JavaScript `String.prototype.split(':')` is
translated as `splitColon`.  Maps held in object fields are modelled as
functions to `Option`.  Promise-based asynchronous control flow is modelled
as an explicit event-step semantics on the backend state.
-/

namespace MCP3D

/-- JavaScript `s.split(':')` semantics on a character list:
`""` splits to `[""]`, `"a:"` splits to `["a", ""]`. -/
def splitColon : List Char → List (List Char)
  | [] => [[]]
  | c :: rest =>
    match splitColon rest with
    | [] => [[]]
    | h :: t => if c = ':' then [] :: h :: t else (c :: h) :: t

/-- `extractBambuCredentials` from src/dist/printers/bambu.js lines 271-277:
split the apiKey on `':'`; throw unless exactly two parts; return the pair. -/
def extractBambuCredentials (apiKey : List Char) : Except String (List Char × List Char) :=
  let parts := splitColon apiKey
  if parts.length ≠ 2 then
    .error "Invalid Bambu credentials format. Expected serial:token"
  else
    .ok (parts.headD [], (parts.drop 1).headD [])

example : extractBambuCredentials "serial123:tokABC".toList =
    .ok ("serial123".toList, "tokABC".toList) := by rfl
example : (extractBambuCredentials "onlyoneval".toList).isOk = false := by decide
example : (extractBambuCredentials "a:b:c".toList).isOk = false := by decide
example : extractBambuCredentials "a:".toList = .ok ("a".toList, []) := by rfl

/-- `splitColon` always returns one more chunk than the number of colons. -/
theorem splitColon_length (cs : List Char) :
    (splitColon cs).length = cs.count ':' + 1 := by
  induction cs with
  | nil => rfl
  | cons c rest ih =>
    simp only [splitColon]
    cases h : splitColon rest with
    | nil => simp [h] at ih
    | cons hd tl =>
      by_cases hc : c = ':'
      · simp [hc, List.count_cons, h] at ih ⊢; omega
      · simp [hc, List.count_cons, h] at ih ⊢; omega

/-- `splitColon` never returns the empty list. -/
theorem splitColon_ne_nil (cs : List Char) : splitColon cs ≠ [] := by
  have := splitColon_length cs
  intro h
  rw [h] at this
  simp at this

/-- A colon-free list splits to the single chunk `[cs]`. -/
theorem splitColon_no_colon (cs : List Char) (h : ':' ∉ cs) :
    splitColon cs = [cs] := by
  induction cs with
  | nil => rfl
  | cons c rest ih =>
    simp only [List.mem_cons, not_or] at h
    have hne : ¬(c = ':') := fun hc => h.1 hc.symm
    simp only [splitColon, ih h.2, if_neg hne]

/-- Splitting `a ++ ':' :: b` where `a` and `b` are colon-free yields `[a, b]`. -/
theorem splitColon_glue (a b : List Char) (ha : ':' ∉ a) (hb : ':' ∉ b) :
    splitColon (a ++ ':' :: b) = [a, b] := by
  induction a with
  | nil =>
    simp [splitColon, splitColon_no_colon b hb]
  | cons c cs ih =>
    simp only [List.mem_cons, not_or] at ha
    have hne : ¬(c = ':') := fun hc => ha.1 hc.symm
    simp only [List.cons_append, splitColon, List.append_eq, ih ha.2, if_neg hne]

/-- C4 counterexample: the token `"a:"` splits on `':'` into exactly two
components where the second is empty.  `extractBambuCredentials` accepts it and
returns an empty secret, whereas the claim states that a token with an empty
component is rejected with a validation error before any network action. -/
theorem extractBambuCredentials_empty_component_accepted :
    extractBambuCredentials "a:".toList = .ok ("a".toList, []) := by rfl

/-- C4 (amended): credential extraction succeeds iff splitting the token on
`':'` yields exactly two components — equivalently, iff the token contains
exactly one colon; the components may be empty.  On a well-formed token
`identifier ++ ":" ++ secret` (both parts colon-free) it returns exactly that
pair.  The function is pure: it is a total function of the token alone. -/
theorem extractBambuCredentials_two_components :
    (∀ cs : List Char, (extractBambuCredentials cs).isOk ↔ cs.count ':' = 1) ∧
    (∀ a b : List Char, ':' ∉ a → ':' ∉ b →
      extractBambuCredentials (a ++ ':' :: b) = .ok (a, b)) := by
  constructor
  · intro cs
    have hlen := splitColon_length cs
    unfold extractBambuCredentials
    by_cases h : (splitColon cs).length = 2
    · simp only [h]
      simp [Except.isOk, Except.toBool]
      omega
    · simp only [h]
      simp [h, Except.isOk, Except.toBool]
      omega
  · intro a b ha hb
    unfold extractBambuCredentials
    rw [splitColon_glue a b ha hb]
    rfl

/-- Witness for `extractBambuCredentials_two_components`. -/
theorem extractBambuCredentials_two_components_witness :
    extractBambuCredentials ("serial123".toList ++ ':' :: "tokABC".toList) =
      .ok ("serial123".toList, "tokABC".toList) :=
  extractBambuCredentials_two_components.2 _ _ (by decide) (by decide)

/-! ## Backend registry (src/dist/printers/printer-factory.js) -/

/-- The seven backend singletons constructed once in the `PrinterFactory`
constructor.  Each constructor value stands for the unique instance created at
registry construction, so equality of `PrinterImpl` values models object
identity of the singletons. -/
inductive PrinterImpl where
  | octoprint
  | klipper
  | duet
  | repetier
  | bambu
  | prusa
  | creality
  deriving DecidableEq

/-- JavaScript `String.prototype.toLowerCase` on a character list (the type
identifiers are plain ASCII). -/
def toLowerCase (t : List Char) : List Char :=
  t.map Char.toLower

/-- The fixed `implementations` map filled in the `PrinterFactory` constructor
(printer-factory.js lines 10-19), built once per process. -/
def implementations : List (List Char × PrinterImpl) :=
  [("octoprint".toList, .octoprint), ("klipper".toList, .klipper),
   ("duet".toList, .duet), ("repetier".toList, .repetier),
   ("bambu".toList, .bambu), ("prusa".toList, .prusa),
   ("creality".toList, .creality)]

/-- `getImplementation` from printer-factory.js lines 21-27: look the
lower-cased type identifier up in the fixed map; throw
`Unsupported printer type` on a miss.  The map is threaded through and
returned unchanged, reflecting that the lookup performs no mutation and no
I/O. -/
def getImplementation (impls : List (List Char × PrinterImpl)) (t : List Char) :
    Except (List Char) PrinterImpl × List (List Char × PrinterImpl) :=
  match impls.lookup (toLowerCase t) with
  | some impl => (.ok impl, impls)
  | none => (.error ("Unsupported printer type: ".toList ++ t), impls)

example : (getImplementation implementations "Bambu".toList).1 = .ok .bambu := by rfl
example : (getImplementation implementations "BAMBU".toList).1 = .ok .bambu := by rfl
example : (getImplementation implementations "makerbot9000".toList).1 =
    .error "Unsupported printer type: makerbot9000".toList := by rfl

/-- C6: registry resolution is case-insensitive and draws from the fixed map
built once at construction: two identifiers with the same lower-cased form
resolve to the identical backend singleton (`PrinterImpl` equality models
object identity of the per-process singletons), and `"Bambu"`/`"bambu"` both
resolve to the Bambu singleton.  Repeated calls trivially return the same
instance because the lookup reads the fixed map and mutates nothing. -/
theorem getImplementation_case_insensitive :
    (∀ s t : List Char, toLowerCase s = toLowerCase t →
      ∀ i, (getImplementation implementations s).1 = .ok i ↔
        (getImplementation implementations t).1 = .ok i) ∧
    (getImplementation implementations "Bambu".toList).1 = .ok .bambu ∧
    (getImplementation implementations "bambu".toList).1 = .ok .bambu := by
  refine ⟨?_, rfl, rfl⟩
  intro s t h i
  unfold getImplementation
  rw [h]
  cases implementations.lookup (toLowerCase t) <;> simp

/-- Witness for `getImplementation_case_insensitive`. -/
theorem getImplementation_case_insensitive_witness :
    (getImplementation implementations "BaMbU".toList).1 = .ok .bambu :=
  ((getImplementation_case_insensitive.1 "BaMbU".toList "bambu".toList (by decide)
    PrinterImpl.bambu).mpr getImplementation_case_insensitive.2.2)

/-- C7: resolving an identifier whose lower-cased form matches no backend fails
with the unsupported-type error, and a lookup (hit or miss) returns the
implementations map unchanged; the definition is a pure function, so no I/O is
performed. -/
theorem getImplementation_unknown_type :
    (getImplementation implementations "makerbot9000".toList).1 =
      .error "Unsupported printer type: makerbot9000".toList ∧
    (∀ impls t, (getImplementation impls t).2 = impls) ∧
    (∀ t : List Char, implementations.lookup (toLowerCase t) = none →
      (getImplementation implementations t).1 =
        .error ("Unsupported printer type: ".toList ++ t)) := by
  refine ⟨rfl, ?_, ?_⟩
  · intro impls t
    unfold getImplementation
    cases impls.lookup (toLowerCase t) <;> rfl
  · intro t h
    unfold getImplementation
    rw [h]

/-- Witness for `getImplementation_unknown_type`. -/
theorem getImplementation_unknown_type_witness :
    (getImplementation implementations "ender3".toList).1 =
      .error "Unsupported printer type: ender3".toList :=
  getImplementation_unknown_type.2.2 "ender3".toList (by decide)

/-! ## Command/response protocol adapter (bambu.js `publishMqttCommand`) -/

/-- JSON values, for command payloads. -/
inductive Json where
  | str (s : String)
  | num (n : Int)
  | jbool (b : Bool)
  | arr (xs : List Json)
  | obj (fields : List (String × Json))
  | null

/-- The `{ status, message }` object resolved by `publishMqttCommand`. -/
structure PublishResult where
  status : String
  message : String
  deriving DecidableEq

/-- `publishMqttCommand` from bambu.js lines 252-268: build the topic
`device/<serial>/request`, wrap the payload as the single-key object
`{ [commandType]: payload }`, publish at QoS 1, and settle on the transport's
acknowledgement callback alone: resolve with the success object when the
callback reports no error, reject with the wrapped error otherwise.
`publishErr` is the error (if any) the transport passes to the publish
callback; no printer status report enters the function.  Returns
((topic, message), settlement). -/
def publishMqttCommand (serial commandType : String) (payload : Json)
    (publishErr : Option String) :
    (String × Json) × Except String PublishResult :=
  let topic := "device/" ++ serial ++ "/request"
  let message := Json.obj [(commandType, payload)]
  match publishErr with
  | some e => ((topic, message), .error ("Failed to publish MQTT command: " ++ e))
  | none => ((topic, message),
      .ok { status := "success", message := "Command sent successfully via MQTT." })

/-- C8: every publish goes to exactly the topic `device/<serial>/request`, the
message is the single-key object `{ commandType: payload }`, the call resolves
iff the transport acknowledgement reports no error, and a transport error is
surfaced wrapped.  The settlement depends only on the acknowledgement, never
on any printer status report (none is an input of the function). -/
theorem publishMqttCommand_spec :
    ∀ (serial c : String) (p : Json) (err : Option String),
      (publishMqttCommand serial c p err).1.1 = "device/" ++ serial ++ "/request" ∧
      (publishMqttCommand serial c p err).1.2 = Json.obj [(c, p)] ∧
      ((publishMqttCommand serial c p err).2.isOk ↔ err = none) ∧
      (∀ e, err = some e → (publishMqttCommand serial c p err).2 =
        .error ("Failed to publish MQTT command: " ++ e)) := by
  intro serial c p err
  cases err <;>
    simp [publishMqttCommand, Except.isOk, Except.toBool]

/-- Witness for `publishMqttCommand_spec`. -/
theorem publishMqttCommand_spec_witness :
    (publishMqttCommand "S1" "print" Json.null (some "timeout")).2 =
      .error "Failed to publish MQTT command: timeout" :=
  (publishMqttCommand_spec "S1" "print" Json.null (some "timeout")).2.2.2
    "timeout" rfl

/-! ## print3mf payload construction (bambu.js lines 124-179) and the
print_3mf tool handler's AMS option derivation (the tool dispatch source). -/

/-- The options object passed to `print3mf` (interface
`BambuPrintOptionsInternal`); `Option` fields model optional JS properties. -/
structure PrintOptions where
  projectName : String
  filePath : List Char
  useAMS : Option Bool
  plateIndex : Option Int
  bedLeveling : Option Bool
  flowCalibration : Option Bool
  vibrationCalibration : Option Bool
  layerInspect : Option Bool
  timelapse : Option Bool
  amsMapping : Option (List Int)
  md5 : Option String
  deriving DecidableEq

/-- The MQTT `project_file` command payload built by `print3mf`;
`ams_mapping = none` / `md5 = none` model the field being absent from the
serialized object. -/
structure ProjectFileCommand where
  sequence_id : String
  command : String
  param : List Char
  project_name : String
  use_ams : Bool
  plate_idx : Int
  bed_levelling : Bool
  flow_cali : Bool
  vibration_cali : Bool
  layer_inspect : Bool
  timelapse : Bool
  ams_mapping : Option (List Int)
  md5 : Option String
  deriving DecidableEq

/-- `path.basename`: the characters after the last `'/'`. -/
def basename (p : List Char) : List Char :=
  p.foldl (fun acc c => if c = '/' then [] else acc ++ [c]) []

/-- `.replace(/\\/g, '/')` on a character list. -/
def backslashToSlash (p : List Char) : List Char :=
  p.map (fun c => if c = '\\' then '/' else c)

/-- Payload construction of `print3mf` (bambu.js lines 127-176): build the
command object, then delete `ams_mapping` and force `use_ams := false` when
the mapping is absent or empty, and delete `md5` when falsy (absent or the
empty string). -/
def buildPrint3mfPayload (seqId : String) (opts : PrintOptions) : ProjectFileCommand :=
  let remotePath := backslashToSlash ("gcodes/".toList ++ basename opts.filePath)
  let initial : ProjectFileCommand :=
    { sequence_id := seqId
      command := "project_file"
      param := remotePath
      project_name := opts.projectName
      use_ams := match opts.amsMapping with
        | some m => if m.length > 0 then true else opts.useAMS.getD false
        | none => opts.useAMS.getD false
      plate_idx := opts.plateIndex.getD 0
      bed_levelling := opts.bedLeveling.getD true
      flow_cali := opts.flowCalibration.getD false
      vibration_cali := opts.vibrationCalibration.getD false
      layer_inspect := opts.layerInspect.getD false
      timelapse := opts.timelapse.getD false
      ams_mapping := opts.amsMapping
      md5 := opts.md5 }
  let afterAms :=
    if initial.ams_mapping = none ∨ (initial.ams_mapping.getD []).length = 0 then
      { initial with ams_mapping := none, use_ams := false }
    else initial
  match afterAms.md5 with
  | none => afterAms
  | some s => if s = "" then { afterAms with md5 := none } else afterAms

/-- A JavaScript value as inspected by the tool handler's
`typeof v === 'number'` filters. -/
inductive JsValue where
  | num (n : Int)
  | str (s : String)
  | other
  deriving DecidableEq

/-- The `typeof v === 'number'` filter. -/
def jsNum : JsValue → Option Int
  | .num n => some n
  | _ => none

/-- The caller-supplied `ams_mapping` argument of the print_3mf tool: a JSON
array, a JSON object (name-to-slot map), or some other truthy value. -/
inductive AmsMappingArg where
  | arr (xs : List JsValue)
  | obj (kvs : List (String × JsValue))
  | prim
  deriving DecidableEq

/-- Ascending insertion, for `.sort((a, b) => a - b)`. -/
def insertAsc (x : Int) : List Int → List Int
  | [] => [x]
  | y :: ys => if x ≤ y then x :: y :: ys else y :: insertAsc x ys

/-- `.sort((a, b) => a - b)` (ascending numeric sort). -/
def sortAsc : List Int → List Int
  | [] => []
  | x :: xs => insertAsc x (sortAsc xs)

/-- Extraction of the default AMS mapping from the parsed 3MF slicer config
(tool handler): collect the numeric values of `slicerConfig.ams_mapping`,
sort ascending, and keep the result only when non-empty. -/
def extractParsedAmsMapping (slicerAms : Option (List (String × JsValue))) :
    Option (List Int) :=
  match slicerAms with
  | none => none
  | some kvs =>
    let slots := (kvs.map Prod.snd).filterMap jsNum
    if slots.length > 0 then some (sortAsc slots) else none

/-- The print_3mf tool handler's derivation of `(useAMS, finalAmsMapping)`
from the parsed default mapping and the caller's `use_ams` / `ams_mapping`
arguments (the "Gather Overrides" block):
1. start from the parsed mapping; default `useAMS` to the explicit argument,
   else to mapping non-emptiness;
2. a non-empty numeric user mapping override replaces the mapping and forces
   `useAMS := true` (array values kept in order, object values sorted);
3. an explicit `use_ams === false` clears the mapping and disables;
4. finally, an absent/empty mapping forces `useAMS := false`. -/
def deriveAmsOptions (parsed : Option (List Int)) (argsUseAms : Option Bool)
    (argsAms : Option AmsMappingArg) : Bool × Option (List Int) :=
  let useAms0 : Bool := match argsUseAms with
    | some b => b
    | none => match parsed with
      | some m => decide (0 < m.length)
      | none => false
  let step1 : Bool × Option (List Int) := match argsAms with
    | none => (useAms0, parsed)
    | some arg =>
      let override : Option (List Int) := match arg with
        | .arr xs => some (xs.filterMap jsNum)
        | .obj kvs => some (sortAsc ((kvs.map Prod.snd).filterMap jsNum))
        | .prim => none
      match override with
      | some ov => if 0 < ov.length then (true, some ov) else (useAms0, parsed)
      | none => (useAms0, parsed)
  let step2 := if argsUseAms = some false then (false, (none : Option (List Int))) else step1
  let finalUse : Bool := match step2.2 with
    | none => false
    | some m => if m.length = 0 then false else step2.1
  (finalUse, step2.2)

example :
    (buildPrint3mfPayload "1"
      { projectName := "box", filePath := "/tmp/box.3mf".toList,
        useAMS := some true, plateIndex := none, bedLeveling := none,
        flowCalibration := none, vibrationCalibration := none,
        layerInspect := none, timelapse := none, amsMapping := none,
        md5 := none }).use_ams = false := by decide
example : deriveAmsOptions (some [0, 1]) (some false) none = (false, none) := by decide
example : extractParsedAmsMapping
    (some [("PLA", .num 1), ("PETG", .num 0), ("name", .str "x")]) = some [0, 1] := by decide
example : deriveAmsOptions (some [0, 1]) none none = (true, some [0, 1]) := by decide
example :
    deriveAmsOptions none none
      (some (.obj [("A", .num 1), ("B", .num 0)])) = (true, some [0, 1]) := by decide

/-- C1: the AMS safety guard of the print-from-archive path.
(i) At the `print3mf` level: whenever the filament-slot mapping is absent or
empty, the final command payload has `use_ams = false` and no `ams_mapping`
field, for every value of the explicit `useAMS` option (in particular an
explicit enable).  (ii) At the tool-handler level: an explicit
`use_ams = false` argument makes the derivation yield `(false, none)` for
every parsed mapping and every user mapping override, so (iii) the payload
`print3mf` then builds has multi-material disabled. -/
theorem print3mf_ams_safety :
    (∀ (seq : String) (opts : PrintOptions),
      opts.amsMapping = none ∨ opts.amsMapping = some ([] : List Int) →
      (buildPrint3mfPayload seq opts).use_ams = false ∧
      (buildPrint3mfPayload seq opts).ams_mapping = none) ∧
    (∀ (parsed : Option (List Int)) (argsAms : Option AmsMappingArg),
      deriveAmsOptions parsed (some false) argsAms = (false, none)) ∧
    (∀ (seq : String) (opts : PrintOptions) (parsed : Option (List Int))
        (argsAms : Option AmsMappingArg),
      opts.useAMS = some (deriveAmsOptions parsed (some false) argsAms).1 →
      opts.amsMapping = (deriveAmsOptions parsed (some false) argsAms).2 →
      (buildPrint3mfPayload seq opts).use_ams = false ∧
      (buildPrint3mfPayload seq opts).ams_mapping = none) := by
  have hbuild : ∀ (seq : String) (opts : PrintOptions),
      opts.amsMapping = none ∨ opts.amsMapping = some ([] : List Int) →
      (buildPrint3mfPayload seq opts).use_ams = false ∧
      (buildPrint3mfPayload seq opts).ams_mapping = none := by
    intro seq opts h
    unfold buildPrint3mfPayload
    rcases h with h | h <;> simp [h] <;> cases opts.md5 <;> simp <;> split_ifs <;> simp
  have hderive : ∀ (parsed : Option (List Int)) (argsAms : Option AmsMappingArg),
      deriveAmsOptions parsed (some false) argsAms = (false, none) := by
    intro parsed argsAms
    unfold deriveAmsOptions
    simp
  refine ⟨hbuild, hderive, ?_⟩
  intro seq opts parsed argsAms _h1 h2
  exact hbuild seq opts (Or.inl (by rw [h2, hderive]))

/-- Witness for `print3mf_ams_safety`: an explicit enable with an absent
mapping still yields a disabled payload without a mapping field. -/
theorem print3mf_ams_safety_witness :
    (buildPrint3mfPayload "42"
      { projectName := "box", filePath := "/tmp/box.3mf".toList,
        useAMS := some true, plateIndex := none, bedLeveling := none,
        flowCalibration := none, vibrationCalibration := none,
        layerInspect := none, timelapse := none, amsMapping := none,
        md5 := none }).use_ams = false ∧
    (buildPrint3mfPayload "42"
      { projectName := "box", filePath := "/tmp/box.3mf".toList,
        useAMS := some true, plateIndex := none, bedLeveling := none,
        flowCalibration := none, vibrationCalibration := none,
        layerInspect := none, timelapse := none, amsMapping := none,
        md5 := none }).ams_mapping = none :=
  print3mf_ams_safety.1 "42" _ (Or.inl rfl)

/-! ## getStatus (bambu.js lines 105-122) -/

/-- The status object `getStatus` returns; `none` fields model absent JS
properties. -/
structure BambuStatus where
  status : String
  serial : Option (List Char)
  note : Option String
  error : Option String
  deriving DecidableEq

/-- `getStatus` from bambu.js lines 105-122: extract credentials (a malformed
apiKey throws before the `try` block), await the MQTT client
(`mqttOutcome` is the settlement of `getMqttClient`: a client id with its
`connected` flag, or the rejection), and — crucially — the `catch` block turns
a connection failure into a *normally returned* object
`{ status: "error", error: message }`. -/
def getStatus (apiKey : List Char)
    (mqttOutcome : Except String (Nat × Bool)) : Except String BambuStatus :=
  match extractBambuCredentials apiKey with
  | .error e => .error e
  | .ok (serial, _token) =>
    match mqttOutcome with
    | .ok (_client, connected) =>
        .ok { status := if connected then "connected" else "connecting",
              serial := some serial,
              note := some "Full status details require MQTT state tracking implementation.",
              error := none }
    | .error e => .ok { status := "error", serial := none, note := none, error := some e }

/-- C9 counterexample: with valid credentials and a failed connection
establishment, `getStatus` returns a *normal* (`.ok`) status object carrying
the message — it does not reject with a `ConnectionError`-kinded failure as
the claim states. -/
theorem getStatus_swallows_connection_error :
    getStatus "s:t".toList (.error "connect ECONNREFUSED") =
      .ok { status := "error", serial := none, note := none,
            error := some "connect ECONNREFUSED" } := by rfl

/-- C9 (amended): when connection establishment fails, `getStatus` catches the
rejection and returns a normal result object with `status = "error"` carrying
the underlying message (distinguishable by the `status` field, not by
rejection); it rejects only for a malformed credential token, before any
connection attempt. -/
theorem getStatus_error_object :
    (∀ (apiKey serial token : List Char) (e : String),
      extractBambuCredentials apiKey = .ok (serial, token) →
      getStatus apiKey (.error e) =
        .ok { status := "error", serial := none, note := none, error := some e }) ∧
    (∀ (apiKey : List Char) (outcome : Except String (Nat × Bool)) (e : String),
      extractBambuCredentials apiKey = .error e →
      getStatus apiKey outcome = .error e) := by
  constructor
  · intro apiKey serial token e h
    unfold getStatus
    rw [h]
  · intro apiKey outcome e h
    unfold getStatus
    rw [h]

/-- Witness for `getStatus_error_object`. -/
theorem getStatus_error_object_witness :
    getStatus "serial:tok".toList (.error "EHOSTUNREACH") =
      .ok { status := "error", serial := none, note := none,
            error := some "EHOSTUNREACH" } :=
  getStatus_error_object.1 "serial:tok".toList "serial".toList "tok".toList
    "EHOSTUNREACH" (by rfl)

/-! ## uploadFile (bambu.js lines 223-245) -/

/-- The `{ status, message }` object returned by `uploadFile`. -/
structure UploadResult where
  status : String
  message : String
  deriving DecidableEq

/-- `uploadFile` from bambu.js lines 223-245: extract credentials, upload via
FTP (`ftpErr` is the FTP failure, if any, wrapped on rethrow), and — when the
`print` flag is true — emit only a console warning.  Output: the settlement,
the list of MQTT commands published (always empty: the function publishes
nothing), and the console warnings. -/
def uploadFile (apiKey : List Char) (filePath filename : String)
    (printFlag : Bool) (ftpErr : Option String) :
    Except String UploadResult × List (String × Json) × List String :=
  match extractBambuCredentials apiKey with
  | .error e => (.error e, [], [])
  | .ok _ =>
    match ftpErr with
    | some e => (.error ("Failed to upload file via FTP: " ++ e), [], [])
    | none =>
      let warns := if printFlag then
        ["'print=true' ignored in uploadFile for Bambu. Use print_3mf tool instead."]
      else []
      (.ok { status := "success",
             message := "File " ++ filename ++ " uploaded successfully" }, [], warns)

/-- C10: the print-after-upload flag has no effect on the observable result of
`uploadFile`: for any two runs identical except for the flag, the settlement
(result or error) is the same, and no MQTT command is ever published — in
particular no start-print command, even when the flag is true. -/
theorem uploadFile_print_flag_no_effect :
    ∀ (apiKey : List Char) (filePath filename : String)
      (ftpErr : Option String) (p1 p2 : Bool),
      (uploadFile apiKey filePath filename p1 ftpErr).1 =
        (uploadFile apiKey filePath filename p2 ftpErr).1 ∧
      (uploadFile apiKey filePath filename p1 ftpErr).2.1 = [] := by
  intro apiKey filePath filename ftpErr p1 p2
  unfold uploadFile
  cases extractBambuCredentials apiKey with
  | error e => simp
  | ok pair => cases ftpErr <;> simp

/-! ## disconnectAllMqtt (bambu.js lines 82-103) -/

/-- The observable outcome of `disconnectAllMqtt`: which client ids were
gracefully closed, the two pools after the call, and the rejection (if the
function threw). -/
structure DisconnectOutcome where
  closed : List Nat
  clients : List (List Char × Nat)
  promises : List (List Char × Nat)
  thrown : Option String
  deriving DecidableEq

/-- The `for (const key in this.mqttClients)` loop of `disconnectAllMqtt`:
each client's `end` is awaited in turn; a close error rejects the awaited
promise, which propagates out of the async function and aborts the loop. -/
def disconnectLoop (closeRes : Nat → Option String) :
    List (List Char × Nat) → List Nat → Option String × List Nat
  | [], acc => (none, acc.reverse)
  | (_, c) :: rest, acc =>
    match closeRes c with
    | some e => (some e, acc.reverse)
    | none => disconnectLoop closeRes rest (c :: acc)

/-- `disconnectAllMqtt` from bambu.js lines 82-103: close every pooled client
in order; `closeRes c` is the error (if any) the transport reports for closing
client `c`.  Only when every close succeeds does control reach lines 101-102,
which reset `mqttClients` and `mqttConnectionPromises` to empty; a close error
rejects out of the function with both pools untouched. -/
def disconnectAllMqtt (clients : List (List Char × Nat))
    (promises : List (List Char × Nat)) (closeRes : Nat → Option String) :
    DisconnectOutcome :=
  match disconnectLoop closeRes clients [] with
  | (some e, closed) =>
      { closed := closed, clients := clients, promises := promises, thrown := some e }
  | (none, closed) =>
      { closed := closed, clients := [], promises := [], thrown := none }

/-- C3: at the failing input — two pooled clients where the first close
reports an error — `disconnectAllMqtt` aborts: the second client is never
closed and both pools still hold their entries, contradicting the claim that
a close failure does not prevent the remaining handles from being closed and
that both pools are cleared unconditionally.  (The second conjunct shows the
pools are cleared only on the all-successes path.) -/
theorem disconnectAllMqtt_aborts_on_close_error :
    disconnectAllMqtt [("h1-s1".toList, 1), ("h2-s2".toList, 2)]
        [("h3-s3".toList, 7)]
        (fun c => if c = 1 then some "EPIPE" else none) =
      { closed := [], clients := [("h1-s1".toList, 1), ("h2-s2".toList, 2)],
        promises := [("h3-s3".toList, 7)], thrown := some "EPIPE" } ∧
    disconnectAllMqtt [("h1-s1".toList, 1), ("h2-s2".toList, 2)]
        [("h3-s3".toList, 7)] (fun _ => none) =
      { closed := [1, 2], clients := [], promises := [], thrown := none } := by
  constructor <;> rfl

/-! ## MQTT connection pool state machine (bambu.js `getMqttClient`,
lines 17-80, and the handlers it registers)

The backend instance's bookkeeping (`this.mqttClients`,
`this.mqttConnectionPromises`) is modelled as explicit state; a connect
attempt is identified by the value of `nextAttempt` at its creation, and the
client object an attempt produces carries the attempt's id.  The handler
bodies are modelled exactly as written: on every emission, the 'connect'
handler of a client (lines 43-54) unconditionally re-registers that client in
the pool and deletes the key's promise tracker, the 'error' handler (lines
55-60) unconditionally deletes the pooled client and the tracker, and the
'close' handler (lines 61-64) unconditionally deletes the pooled client.
Removed clients are never ended and are configured with
`reconnectPeriod: 5000`, so a client created once may keep emitting
'connect'/'error'/'close' arbitrarily often and arbitrarily late; the only
constraint on an event is that its client exists, i.e. a transport connect
for that (key, id) was initiated.  An attempt's promise settles on the first
'connect'/'error' emission of its client (tracked in `settled`); later
emissions re-run the handler bodies but cannot re-settle the promise. -/

/-- The MQTT bookkeeping of `BambuImplementation`: `clients` maps a client key
to the pooled client (id, `connected` flag); `promises` maps a key to the
pending attempt tracked for it; `connects` logs every transport-level connect
initiated by `getMqttClient` (most recent first); `settled` lists the
attempts whose establishment promise has settled; `nextAttempt` is a fresh-id
counter. -/
structure MqttState where
  clients : List Char → Option (Nat × Bool)
  promises : List Char → Option Nat
  nextAttempt : Nat
  connects : List (List Char × Nat)
  settled : List Nat

/-- The constructor state: both pools empty (bambu.js lines 7-8). -/
def initMqttState : MqttState :=
  { clients := fun _ => none, promises := fun _ => none,
    nextAttempt := 0, connects := [], settled := [] }

/-- What one `getMqttClient` call hands its caller: the pooled connected
client, the promise of the attempt currently tracked, or the promise of a
newly initiated attempt. -/
inductive CallRes where
  | cached (c : Nat)
  | awaited (a : Nat)
  | fresh (a : Nat)
  deriving DecidableEq

/-- Pointwise map update. -/
def updateFn {α : Type} (f : List Char → Option α) (k : List Char) (v : Option α) :
    List Char → Option α :=
  fun k' => if k' = k then v else f k'

theorem updateFn_same {α : Type} (f : List Char → Option α) (k : List Char)
    (v : Option α) : updateFn f k v k = v := by
  simp [updateFn]

theorem updateFn_other {α : Type} (f : List Char → Option α) (k k' : List Char)
    (v : Option α) (h : k' ≠ k) : updateFn f k v k' = f k' := by
  simp [updateFn, h]

/-- The synchronous body of `getMqttClient` (lines 17-80): return the pooled
client if it is connected; else return the tracked pending attempt if one
exists; else initiate a transport connect, store the attempt in
`mqttConnectionPromises`, and return it.  The body has no suspension point
between the checks and the store (the promise executor runs synchronously and
line 78 stores the promise before the function returns), so the whole step is
atomic with respect to the event loop. -/
def stepCall (s : MqttState) (k : List Char) : MqttState × CallRes :=
  match s.clients k with
  | some (c, true) => (s, .cached c)
  | _ =>
    match s.promises k with
    | some a => (s, .awaited a)
    | none =>
      ({ clients := s.clients,
         promises := updateFn s.promises k (some s.nextAttempt),
         nextAttempt := s.nextAttempt + 1,
         connects := (k, s.nextAttempt) :: s.connects,
         settled := s.settled }, .fresh s.nextAttempt)

/-- Asynchronous events interleaved with `getMqttClient` calls, each
attributed to the client (attempt id) whose handler fires; `dropped` models
the pooled client's `connected` flag silently going false. -/
inductive MqttEvent where
  | call (k : List Char)
  | connected (k : List Char) (a : Nat)
  | errored (k : List Char) (a : Nat)
  | closed (k : List Char) (a : Nat)
  | dropped (k : List Char)

/-- First settlement wins; re-settling is a no-op. -/
def settle (s : List Nat) (a : Nat) : List Nat :=
  if a ∈ s then s else a :: s

/-- One step of the event loop.  A handler event of client `a` applies its
body unconditionally whenever that client exists (`(k, a) ∈ connects`):
'connect' re-registers the client and deletes the tracker (lines 43-54),
'error' deletes the pooled client and the tracker (lines 55-60), 'close'
deletes the pooled client (lines 61-64).  No handler checks whose attempt the
tracker belongs to. -/
def stepEvent (s : MqttState) (e : MqttEvent) : MqttState :=
  match e with
  | .call k => (stepCall s k).1
  | .connected k a =>
    if (k, a) ∈ s.connects then
      { s with clients := updateFn s.clients k (some (a, true)),
               promises := updateFn s.promises k none,
               settled := settle s.settled a }
    else s
  | .errored k a =>
    if (k, a) ∈ s.connects then
      { s with clients := updateFn s.clients k none,
               promises := updateFn s.promises k none,
               settled := settle s.settled a }
    else s
  | .closed k a =>
    if (k, a) ∈ s.connects then
      { s with clients := updateFn s.clients k none }
    else s
  | .dropped k =>
    match s.clients k with
    | some (c, _) => { s with clients := updateFn s.clients k (some (c, false)) }
    | none => s

/-- Run the backend from the constructor state through a trace of events. -/
def runMqtt (es : List MqttEvent) : MqttState :=
  es.foldl stepEvent initMqttState

/-- The `getMqttClient`-initiated connect attempts for key `k` that are still
in flight (initiated, promise not yet settled). -/
def inflightFor (s : MqttState) (k : List Char) : List (List Char × Nat) :=
  s.connects.filter (fun p => decide (p.1 = k ∧ p.2 ∉ s.settled))

/-- The pool bookkeeping invariant:
1. while a tracker is pending for a key, any pooled client for that key is
   not connected;
2. initiated attempts have ids below the counter;
3. every pooled client was actually created by an initiated connect for its
   key, with id below the counter. -/
def Inv (s : MqttState) : Prop :=
  (∀ k a, s.promises k = some a → ∀ c b, s.clients k = some (c, b) → b = false) ∧
  (∀ k a, (k, a) ∈ s.connects → a < s.nextAttempt) ∧
  (∀ k c b, s.clients k = some (c, b) → (k, c) ∈ s.connects ∧ c < s.nextAttempt)

theorem inv_init : Inv initMqttState := by
  refine ⟨?_, ?_, ?_⟩ <;> simp [initMqttState]

/-- Preservation of `Inv` across the fresh-attempt branch of `stepCall`. -/
theorem inv_fresh (s : MqttState) (k : List Char)
    (hcb : ∀ c b, s.clients k = some (c, b) → b = false) (h : Inv s) :
    Inv { clients := s.clients,
          promises := updateFn s.promises k (some s.nextAttempt),
          nextAttempt := s.nextAttempt + 1,
          connects := (k, s.nextAttempt) :: s.connects,
          settled := s.settled } := by
  obtain ⟨h1, h2, h3⟩ := h
  unfold Inv
  dsimp only
  refine ⟨?_, ?_, ?_⟩
  · intro k' a' hpa c b hcb'
    by_cases hk : k' = k
    · subst hk
      exact hcb c b hcb'
    · rw [updateFn_other _ _ _ _ hk] at hpa
      exact h1 k' a' hpa c b hcb'
  · intro k' a' hm
    rcases List.mem_cons.mp hm with heq | hm'
    · injection heq with he1 he2
      rw [he2]
      exact Nat.lt_succ_self _
    · exact Nat.lt_succ_of_lt (h2 k' a' hm')
  · intro k' c b hc
    obtain ⟨hm, hlt⟩ := h3 k' c b hc
    exact ⟨List.mem_cons_of_mem _ hm, Nat.lt_succ_of_lt hlt⟩

/-- `Inv` is preserved by every event-loop step. -/
theorem inv_step (s : MqttState) (e : MqttEvent) (h : Inv s) :
    Inv (stepEvent s e) := by
  obtain ⟨h1, h2, h3⟩ := h
  cases e with
  | call k =>
    show Inv (stepCall s k).1
    unfold stepCall
    cases hc : s.clients k with
    | some p =>
      obtain ⟨c, b⟩ := p
      cases b with
      | true => exact ⟨h1, h2, h3⟩
      | false =>
        cases hp : s.promises k with
        | some a => exact ⟨h1, h2, h3⟩
        | none =>
          refine inv_fresh s k (fun c' b' hc' => ?_) ⟨h1, h2, h3⟩
          rw [hc] at hc'
          injection hc' with hc'
          injection hc' with hcx hcy
          exact hcy.symm
    | none =>
      cases hp : s.promises k with
      | some a => exact ⟨h1, h2, h3⟩
      | none =>
        refine inv_fresh s k (fun c' b' hc' => ?_) ⟨h1, h2, h3⟩
        rw [hc] at hc'
        exact Option.noConfusion hc'
  | connected k a =>
    simp only [stepEvent]
    by_cases hg : (k, a) ∈ s.connects
    · rw [if_pos hg]
      unfold Inv
      dsimp only
      refine ⟨?_, h2, ?_⟩
      · intro k' a' hpa c b hcb'
        by_cases hk : k' = k
        · subst hk
          rw [updateFn_same] at hpa
          exact Option.noConfusion hpa
        · rw [updateFn_other _ _ _ _ hk] at hpa
          rw [updateFn_other _ _ _ _ hk] at hcb'
          exact h1 k' a' hpa c b hcb'
      · intro k' c b hc
        by_cases hk : k' = k
        · subst hk
          rw [updateFn_same] at hc
          injection hc with hc
          injection hc with hc1 hc2
          rw [← hc1]
          exact ⟨hg, h2 _ a hg⟩
        · rw [updateFn_other _ _ _ _ hk] at hc
          exact h3 k' c b hc
    · rw [if_neg hg]
      exact ⟨h1, h2, h3⟩
  | errored k a =>
    simp only [stepEvent]
    by_cases hg : (k, a) ∈ s.connects
    · rw [if_pos hg]
      unfold Inv
      dsimp only
      refine ⟨?_, h2, ?_⟩
      · intro k' a' hpa c b hcb'
        by_cases hk : k' = k
        · subst hk
          rw [updateFn_same] at hpa
          exact Option.noConfusion hpa
        · rw [updateFn_other _ _ _ _ hk] at hpa
          rw [updateFn_other _ _ _ _ hk] at hcb'
          exact h1 k' a' hpa c b hcb'
      · intro k' c b hc
        by_cases hk : k' = k
        · subst hk
          rw [updateFn_same] at hc
          exact Option.noConfusion hc
        · rw [updateFn_other _ _ _ _ hk] at hc
          exact h3 k' c b hc
    · rw [if_neg hg]
      exact ⟨h1, h2, h3⟩
  | closed k a =>
    simp only [stepEvent]
    by_cases hg : (k, a) ∈ s.connects
    · rw [if_pos hg]
      unfold Inv
      dsimp only
      refine ⟨?_, h2, ?_⟩
      · intro k' a' hpa c b hcb'
        by_cases hk : k' = k
        · subst hk
          rw [updateFn_same] at hcb'
          exact Option.noConfusion hcb'
        · rw [updateFn_other _ _ _ _ hk] at hcb'
          exact h1 k' a' hpa c b hcb'
      · intro k' c b hc
        by_cases hk : k' = k
        · subst hk
          rw [updateFn_same] at hc
          exact Option.noConfusion hc
        · rw [updateFn_other _ _ _ _ hk] at hc
          exact h3 k' c b hc
    · rw [if_neg hg]
      exact ⟨h1, h2, h3⟩
  | dropped k =>
    simp only [stepEvent]
    cases hc : s.clients k with
    | none => exact ⟨h1, h2, h3⟩
    | some p =>
      obtain ⟨c, b⟩ := p
      unfold Inv
      dsimp only
      refine ⟨?_, h2, ?_⟩
      · intro k' a' hpa c' b' hcb'
        by_cases hk : k' = k
        · subst hk
          rw [updateFn_same] at hcb'
          injection hcb' with hcb'
          injection hcb' with hx1 hx2
          rw [← hx2]
        · rw [updateFn_other _ _ _ _ hk] at hcb'
          exact h1 k' a' hpa c' b' hcb'
      · intro k' c' b' hc'
        by_cases hk : k' = k
        · subst hk
          rw [updateFn_same] at hc'
          injection hc' with hc'
          injection hc' with hx1 hx2
          rw [← hx1]
          exact h3 _ c b hc
        · rw [updateFn_other _ _ _ _ hk] at hc'
          exact h3 k' c' b' hc'

/-- Every reachable state satisfies the invariant. -/
theorem inv_run (es : List MqttEvent) : Inv (runMqtt es) := by
  have main : ∀ (l : List MqttEvent) (s : MqttState), Inv s →
      Inv (l.foldl stepEvent s) := by
    intro l
    induction l with
    | nil => intro s h; exact h
    | cons e l ih =>
      intro s h
      exact ih _ (inv_step s e h)
  exact main es initMqttState inv_init

/-- On a state whose pool has no client and no tracked attempt for `k`, a call
initiates and returns a fresh attempt. -/
theorem stepCall_fresh (s : MqttState) (k : List Char)
    (hc : s.clients k = none) (hp : s.promises k = none) :
    stepCall s k =
      ({ clients := s.clients,
         promises := updateFn s.promises k (some s.nextAttempt),
         nextAttempt := s.nextAttempt + 1,
         connects := (k, s.nextAttempt) :: s.connects,
         settled := s.settled }, .fresh s.nextAttempt) := by
  unfold stepCall
  rw [hc, hp]

/-- C2 counterexample: attempt 0 for a key fails but its never-ended client
keeps retrying (`reconnectPeriod: 5000`); a second call starts attempt 1;
client 0's next 'error' re-fire (lines 55-60) deletes attempt 1's tracker;
the following call then finds no tracker and dials attempt 2 while attempt 1
is still in flight.  Two in-flight `getMqttClient`-initiated connects exist
for one key, and the third caller is handed a new attempt instead of the
outcome of the pending one — refuting both the at-most-one-in-flight
invariant and the exactly-one-transport-connect property. -/
theorem getMqttClient_duplicate_dials :
    (inflightFor (runMqtt [MqttEvent.call "host-serial".toList,
        MqttEvent.errored "host-serial".toList 0,
        MqttEvent.call "host-serial".toList,
        MqttEvent.errored "host-serial".toList 0,
        MqttEvent.call "host-serial".toList]) "host-serial".toList).length = 2 ∧
    (stepCall (runMqtt [MqttEvent.call "host-serial".toList,
        MqttEvent.errored "host-serial".toList 0,
        MqttEvent.call "host-serial".toList,
        MqttEvent.errored "host-serial".toList 0]) "host-serial".toList).2 =
      .fresh 2 := by
  constructor <;> decide

/-- C2 (amended): each single `getMqttClient` call is synchronous and
deduplicating: a call arriving while a pending-attempt tracker exists for the
key returns that very tracked attempt and leaves the whole state unchanged —
in particular it initiates no transport connect.  (The global
at-most-one-in-flight invariant does not hold: a stale 'error' re-fire from a
superseded, never-ended client deletes the newer attempt's tracker, after
which a further call dials again while that attempt is still in flight.) -/
theorem getMqttClient_dedup_per_call :
    ∀ (es : List MqttEvent) (k : List Char) (a : Nat),
      (runMqtt es).promises k = some a →
      stepCall (runMqtt es) k = (runMqtt es, .awaited a) := by
  intro es k a ha
  obtain ⟨h1, h2, h3⟩ := inv_run es
  unfold stepCall
  cases hc : (runMqtt es).clients k with
  | none => rw [ha]
  | some p =>
    obtain ⟨c, b⟩ := p
    have hb := h1 k a ha c b hc
    subst hb
    rw [ha]

/-- Witness for `getMqttClient_dedup_per_call`: after one call initiated an
attempt, a second call for the same key returns that same attempt and changes
nothing. -/
theorem getMqttClient_dedup_per_call_witness :
    stepCall (runMqtt [MqttEvent.call "host-serial".toList]) "host-serial".toList =
      (runMqtt [MqttEvent.call "host-serial".toList], .awaited 0) :=
  getMqttClient_dedup_per_call [MqttEvent.call "host-serial".toList]
    "host-serial".toList 0 (by decide)

/-- C5 counterexample: a handle is established (attempt 0), the transport
closes it and the 'close' handler removes it from the pool — but the client
is never ended, auto-reconnects, and its 'connect' handler (lines 43-54)
re-registers the *same* client object.  The next acquisition then returns the
stale handle `cached 0` with the state unchanged (no fresh attempt, no new
connect), refuting the claim that the next acquisition after an error/close
initiates a fresh attempt with a new distinct handle. -/
theorem pool_returns_stale_handle :
    stepCall (runMqtt [MqttEvent.call "host-serial".toList,
        MqttEvent.connected "host-serial".toList 0,
        MqttEvent.closed "host-serial".toList 0,
        MqttEvent.connected "host-serial".toList 0]) "host-serial".toList =
      (runMqtt [MqttEvent.call "host-serial".toList,
        MqttEvent.connected "host-serial".toList 0,
        MqttEvent.closed "host-serial".toList 0,
        MqttEvent.connected "host-serial".toList 0], .cached 0) := by
  rfl

/-- C5 (amended): on a transport error or close of the pooled handle (with no
attempt pending for the key), the handle is removed from the pool in that
very step, and an acquisition performed on the resulting state — before any
stale re-fire of the removed, never-ended client re-registers it — initiates
a fresh connection attempt: a new transport connect is logged and the fresh
attempt's id differs from the removed client's, so that caller obtains a new
distinct handle rather than the stale handle or a cached failure.  (Once the
old client auto-reconnects, a later acquisition returns the stale handle
again.) -/
theorem pool_self_healing_immediate :
    ∀ (es : List MqttEvent) (k : List Char) (c : Nat) (b : Bool),
      (runMqtt es).clients k = some (c, b) →
      (runMqtt es).promises k = none →
      ∀ e, e = MqttEvent.errored k c ∨ e = MqttEvent.closed k c →
        (stepEvent (runMqtt es) e).clients k = none ∧
        (stepCall (stepEvent (runMqtt es) e) k).2 =
          .fresh (runMqtt es).nextAttempt ∧
        (runMqtt es).nextAttempt ≠ c ∧
        (stepCall (stepEvent (runMqtt es) e) k).1.connects =
          (k, (runMqtt es).nextAttempt) :: (runMqtt es).connects := by
  intro es k c b hc hp e he
  obtain ⟨h1, h2, h3⟩ := inv_run es
  obtain ⟨hmem, hlt⟩ := h3 k c b hc
  have hne : (runMqtt es).nextAttempt ≠ c := by omega
  rcases he with rfl | rfl
  · have hs1 : stepEvent (runMqtt es) (MqttEvent.errored k c) =
        { clients := updateFn (runMqtt es).clients k none,
          promises := updateFn (runMqtt es).promises k none,
          nextAttempt := (runMqtt es).nextAttempt,
          connects := (runMqtt es).connects,
          settled := settle (runMqtt es).settled c } := by
      simp only [stepEvent]
      rw [if_pos hmem]
    have hck : updateFn (runMqtt es).clients k none k = none := updateFn_same _ _ _
    have hpk : updateFn (runMqtt es).promises k none k = none := updateFn_same _ _ _
    refine ⟨?_, ?_, hne, ?_⟩
    · rw [hs1]; exact hck
    · rw [hs1, stepCall_fresh _ _ hck hpk]
    · rw [hs1, stepCall_fresh _ _ hck hpk]
  · have hs1 : stepEvent (runMqtt es) (MqttEvent.closed k c) =
        { clients := updateFn (runMqtt es).clients k none,
          promises := (runMqtt es).promises,
          nextAttempt := (runMqtt es).nextAttempt,
          connects := (runMqtt es).connects,
          settled := (runMqtt es).settled } := by
      simp only [stepEvent]
      rw [if_pos hmem]
    have hck : updateFn (runMqtt es).clients k none k = none := updateFn_same _ _ _
    have hp2 : ({ clients := updateFn (runMqtt es).clients k none,
                  promises := (runMqtt es).promises,
                  nextAttempt := (runMqtt es).nextAttempt,
                  connects := (runMqtt es).connects,
                  settled := (runMqtt es).settled } : MqttState).promises k = none := hp
    refine ⟨?_, ?_, hne, ?_⟩
    · rw [hs1]; exact hck
    · rw [hs1, stepCall_fresh _ _ hck hp2]
    · rw [hs1, stepCall_fresh _ _ hck hp2]

/-- Witness for `pool_self_healing_immediate`: establish a handle, close it,
and observe that the immediately following call initiates the fresh
attempt 1 ≠ 0. -/
theorem pool_self_healing_immediate_witness :
    (stepEvent (runMqtt [MqttEvent.call "host-serial".toList,
        MqttEvent.connected "host-serial".toList 0])
      (MqttEvent.closed "host-serial".toList 0)).clients "host-serial".toList = none ∧
    (stepCall (stepEvent (runMqtt [MqttEvent.call "host-serial".toList,
        MqttEvent.connected "host-serial".toList 0])
      (MqttEvent.closed "host-serial".toList 0)) "host-serial".toList).2 =
      .fresh (runMqtt [MqttEvent.call "host-serial".toList,
        MqttEvent.connected "host-serial".toList 0]).nextAttempt ∧
    (runMqtt [MqttEvent.call "host-serial".toList,
        MqttEvent.connected "host-serial".toList 0]).nextAttempt ≠ 0 ∧
    (stepCall (stepEvent (runMqtt [MqttEvent.call "host-serial".toList,
        MqttEvent.connected "host-serial".toList 0])
      (MqttEvent.closed "host-serial".toList 0)) "host-serial".toList).1.connects =
      ("host-serial".toList, (runMqtt [MqttEvent.call "host-serial".toList,
        MqttEvent.connected "host-serial".toList 0]).nextAttempt) ::
      (runMqtt [MqttEvent.call "host-serial".toList,
        MqttEvent.connected "host-serial".toList 0]).connects :=
  pool_self_healing_immediate [MqttEvent.call "host-serial".toList,
      MqttEvent.connected "host-serial".toList 0]
    "host-serial".toList 0 true (by decide) (by decide)
    (MqttEvent.closed "host-serial".toList 0) (Or.inr rfl)

end MCP3D
